import Mathlib

/-!
Verification of the stateful snapshot feature builder and online anomaly
scorer of the metro_disruptions_intelligence repository.

The repository ships only documentation for these components
(docs/feature_engineering.md, docs/anomaly_detection.md); the executable
modules themselves are not present in the source tree.  Every definition
below is therefore a model built from the specification text, marked
`Modelled from the spec:` in its doc comment, and the claims are settled
against these models.
-/

/-- Modelled from the spec: bounded FIFO buffer push, shared by the
rolling buffers of `StationState` and by the `ScoreWindow` of the
`OnlineAnomalyScorer` ("fixed-capacity sequence of past anomaly scores,
oldest evicted on overflow").  The buffer is a list with the oldest
element at the head; when full, the oldest element is evicted. -/
def pushBounded (cap : Nat) (buf : List Int) (x : Int) : List Int :=
  if buf.length < cap then buf ++ [x] else buf.tail ++ [x]

/-- Modelled from the spec: the `ScoreWindow` contents after feeding a
whole sequence of scores, oldest first, through `pushBounded` starting
from an empty window.  (`OnlineAnomalyScorer` owns such a window; this
is the pure replay of its insertions.) -/
def scoreWindowRun (cap : Nat) (xs : List Int) : List Int :=
  xs.foldl (pushBounded cap) []

lemma foldl_pushBounded_drop (cap : Nat) (hcap : 1 ≤ cap) :
    ∀ (xs w : List Int), w.length ≤ cap →
      xs.foldl (pushBounded cap) w = (w ++ xs).drop (w.length + xs.length - cap) := by
  intro xs
  induction xs with
  | nil =>
    intro w hw
    simp only [List.foldl_nil, List.append_nil, List.length_nil, Nat.add_zero]
    have h0 : w.length - cap = 0 := by omega
    rw [h0, List.drop_zero]
  | cons x xs ih =>
    intro w hw
    rw [List.foldl_cons]
    by_cases hlt : w.length < cap
    · have hstep : pushBounded cap w x = w ++ [x] := by
        unfold pushBounded
        rw [if_pos hlt]
      rw [hstep, ih (w ++ [x]) (by simp; omega)]
      have hE : (w ++ [x]).length + xs.length - cap = w.length + (x :: xs).length - cap := by
        simp only [List.length_append, List.length_cons, List.length_nil]
        omega
      rw [hE, List.append_assoc, List.singleton_append]
    · have hlen : w.length = cap := by omega
      rcases w with _ | ⟨a, tl⟩
      · exact absurd hlen (by simp; omega)
      · simp only [List.length_cons] at hlen
        have hstep : pushBounded cap (a :: tl) x = tl ++ [x] := by
          unfold pushBounded
          rw [if_neg hlt]
          rfl
        rw [hstep, ih (tl ++ [x]) (by simp only [List.length_append, List.length_cons, List.length_nil]; omega)]
        have hL : (tl ++ [x]).length + xs.length - cap = xs.length := by
          simp only [List.length_append, List.length_cons, List.length_nil]
          omega
        have hR : (a :: tl).length + (x :: xs).length - cap = xs.length + 1 := by
          simp only [List.length_cons]
          omega
        rw [hL, hR, List.append_assoc, List.singleton_append, List.cons_append,
          List.drop_succ_cons]

/-- C3: for every sequence of score insertions the ScoreWindow never
exceeds its configured capacity, eviction is FIFO, and after inserting
the whole sequence the window holds exactly the most recent `cap` scores
in arrival order (`xs.drop (xs.length - cap)`), hence exactly `cap`
entries once the input is at least `cap` long. -/
theorem scoreWindow_bounded_fifo (cap : Nat) (xs : List Int) (hcap : 1 ≤ cap) :
    scoreWindowRun cap xs = xs.drop (xs.length - cap) ∧
    (scoreWindowRun cap xs).length ≤ cap ∧
    (cap ≤ xs.length → (scoreWindowRun cap xs).length = cap) := by
  have h := foldl_pushBounded_drop cap hcap xs [] (by simp)
  simp at h
  unfold scoreWindowRun
  refine ⟨h, ?_, ?_⟩
  · rw [h]
    simp
    omega
  · intro hge
    rw [h]
    simp
    omega

/-- Witness for C3: a capacity-3 window fed 7 scores holds exactly the
most recent 3, in order. -/
theorem scoreWindow_bounded_fifo_witness :
    scoreWindowRun 3 [1, 2, 3, 4, 5, 6, 7] = [5, 6, 7] ∧
    (scoreWindowRun 3 [1, 2, 3, 4, 5, 6, 7]).length = 3 := by
  have h := scoreWindow_bounded_fifo 3 [1, 2, 3, 4, 5, 6, 7] (by decide)
  refine ⟨?_, h.2.2 (by decide)⟩
  rw [h.1]
  decide

/-- Modelled from the spec: `StationState`, the per-(stop, direction)
mutable state of the `RollingStateStore` — last arrival/departure delay,
last headway, 5/15-window delay buffers, 60-window headway buffer, and
the last snapshot timestamp processed.  The executable builder module is
absent from the source tree. -/
structure StationState where
  lastArrivalDelay : Option Int
  lastDepartureDelay : Option Int
  lastHeadway : Option Int
  lastArrivalTime : Option Int
  delayBuf5 : List Int
  delayBuf15 : List Int
  headwayBuf60 : List Int
  lastSnapshotTs : Option Int
deriving Repr, DecidableEq

/-- Modelled from the spec: the state created lazily on first
observation of a (stop, direction) pair — empty buffers, no scalars. -/
def freshStationState : StationState :=
  { lastArrivalDelay := none, lastDepartureDelay := none, lastHeadway := none,
    lastArrivalTime := none, delayBuf5 := [], delayBuf15 := [], headwayBuf60 := [],
    lastSnapshotTs := none }

/-- Modelled from the spec: committing a computed headway to
`StationState`.  "Headway values are non-negative and capped at 3600
seconds; any computed headway outside [0, 3600] is discarded, not
clamped silently into state" — a valid headway updates `lastHeadway`
and the 60-window buffer, an invalid one leaves the state unmutated. -/
def commitHeadway (st : StationState) (h : Int) : StationState :=
  if 0 ≤ h ∧ h ≤ 3600 then
    { st with lastHeadway := some h,
              headwayBuf60 := pushBounded 60 st.headwayBuf60 h }
  else st

/-- Modelled from the spec: the [0, 3600] range predicate on the
`lastHeadway` scalar of `StationState` (vacuously true before any
headway has been committed). -/
def headwayOk : Option Int → Bool
  | none => true
  | some v => decide (0 ≤ v ∧ v ≤ 3600)

lemma commitHeadway_preserves_ok (st : StationState) (h : Int)
    (hok : headwayOk st.lastHeadway = true) :
    headwayOk ((commitHeadway st h).lastHeadway) = true := by
  unfold commitHeadway
  by_cases hc : 0 ≤ h ∧ h ≤ 3600
  · rw [if_pos hc]
    simp [headwayOk]
    exact hc
  · rw [if_neg hc]
    exact hok

lemma foldl_commitHeadway_ok (hs : List Int) :
    ∀ st : StationState, headwayOk st.lastHeadway = true →
      headwayOk ((hs.foldl commitHeadway st).lastHeadway) = true := by
  induction hs with
  | nil =>
    intro st h
    simpa using h
  | cons x xs ih =>
    intro st h
    exact ih _ (commitHeadway_preserves_ok st x h)

/-- C1: over any input sequence of computed headways, every headway
value committed to `StationState` lies in [0, 3600]; a computed headway
that is negative or exceeds 3600 leaves the state (in particular
`lastHeadway`) unchanged — it is discarded, never clamped into range. -/
theorem headway_commit_bounded (st : StationState) (hs : List Int)
    (hok : headwayOk st.lastHeadway = true) :
    headwayOk ((hs.foldl commitHeadway st).lastHeadway) = true ∧
    ∀ h : Int, (h < 0 ∨ 3600 < h) → commitHeadway st h = st := by
  refine ⟨foldl_commitHeadway_ok hs st hok, ?_⟩
  intro h hbad
  unfold commitHeadway
  rw [if_neg]
  rcases hbad with hb | hb
  · exact fun hc => absurd hc.1 (by omega)
  · exact fun hc => absurd hc.2 (by omega)

/-- Witness for C1: feeding the sequence 100, −5, 4000 into a fresh
state keeps `lastHeadway` inside [0, 3600], and the out-of-range value
−5 alone leaves a fresh state untouched. -/
theorem headway_commit_bounded_witness :
    headwayOk (([100, -5, 4000].foldl commitHeadway freshStationState).lastHeadway) = true ∧
    commitHeadway freshStationState (-5) = freshStationState := by
  have h := headway_commit_bounded freshStationState [100, -5, 4000] (by decide)
  exact ⟨h.1, h.2 (-5) (Or.inl (by decide))⟩

/-- Modelled from the spec: insertion into a sorted list, used by the
quantile computation of the adaptive threshold. -/
def insertSorted (x : Int) : List Int → List Int
  | [] => [x]
  | y :: ys => if x ≤ y then x :: y :: ys else y :: insertSorted x ys

/-- Modelled from the spec: sorting the ScoreWindow contents ascending
before picking the threshold quantile. -/
def sortInts (l : List Int) : List Int := l.foldr insertSorted []

/-- Modelled from the spec: the adaptive threshold, "a configured
quantile (e.g., 0.97–0.98) of the current ScoreWindow contents",
realised as the entry at the quantile index of the sorted window. -/
def adaptiveThreshold (pct : Nat) (window : List Int) : Int :=
  (sortInts window).getD (min ((sortInts window).length - 1)
    (pct * (sortInts window).length / 100)) 0

/-- Modelled from the spec: configuration of the `OnlineAnomalyScorer`
(ensemble hyper-parameters fixed at model-build time, window capacity,
threshold quantile in percent, and `warmup_days`, fixed at 4 in the
reference configuration). -/
structure ScorerConfig where
  nTrees : Nat
  height : Nat
  subsampleSize : Nat
  windowSize : Nat
  thresholdQuantilePct : Nat
  warmupDays : Nat
deriving Repr, DecidableEq

/-- Modelled from the spec: one row presented to the anomaly scorer —
the key metadata plus the numeric feature vector, where an absent
(omitted/NaN) feature value is `none`. -/
structure ScorerRow where
  stop_id : Nat
  snapshot_time : Int
  features : List (Option Int)
deriving Repr, DecidableEq

/-- Modelled from the spec: the excluded/temporary stop set
{204472, 2155270} removed before scoring. -/
def excludedStops : List Nat := [204472, 2155270]

/-- Modelled from the spec: preprocessing step 1 — "missing values are
filled with 0" before scoring. -/
def sanitizeFeatures (fs : List (Option Int)) : List Int :=
  fs.map (fun o => o.getD 0)

/-- Modelled from the spec: preprocessing step 3 — a row all of whose
numeric features are 0 (after fill) is dropped. -/
def allZero (fs : List (Option Int)) : Bool :=
  (sanitizeFeatures fs).all (fun v => v == 0)

/-- Modelled from the spec: warm-up test — a row is in warm-up when its
snapshot timestamp is within `warmupDays` days of the start of the
stream. -/
def inWarmup (cfg : ScorerConfig) (start t : Int) : Bool :=
  decide (t < start + (cfg.warmupDays : Int) * 86400)

/-- Modelled from the spec: the mutable state of the
`OnlineAnomalyScorer` — the incrementally-updated model (abstract type
`M`), the bounded ScoreWindow, and the timestamp of the first row seen
(defining the warm-up span). -/
structure ScorerState (M : Type) where
  model : M
  window : List Int
  streamStart : Option Int

/-- Modelled from the spec: the result of presenting one row — new
state, the raw score (`none` when the row was rejected unscored), and
the alert flag. -/
structure ScoreResult (M : Type) where
  state : ScorerState M
  score : Option Int
  alert : Bool

/-- Modelled from the spec: `OnlineAnomalyScorer` processing of one
feature row.  Excluded-stop and all-zero rows are rejected unscored
with no state change; otherwise the row is scored, the model and the
ScoreWindow are always updated, and an alert is raised only outside
warm-up when the score exceeds the adaptive threshold derived from the
current window contents. -/
def processRow {M : Type} (cfg : ScorerConfig)
    (scoreFn : M → List Int → Int) (updateFn : M → List Int → M)
    (st : ScorerState M) (row : ScorerRow) : ScoreResult M :=
  if row.stop_id ∈ excludedStops ∨ allZero row.features then
    { state := st, score := none, alert := false }
  else
    { state :=
        { model := updateFn st.model (sanitizeFeatures row.features),
          window := pushBounded cfg.windowSize st.window
            (scoreFn st.model (sanitizeFeatures row.features)),
          streamStart := some (st.streamStart.getD row.snapshot_time) },
      score := some (scoreFn st.model (sanitizeFeatures row.features)),
      alert :=
        if inWarmup cfg (st.streamStart.getD row.snapshot_time) row.snapshot_time then
          false
        else
          decide (adaptiveThreshold cfg.thresholdQuantilePct
            (pushBounded cfg.windowSize st.window
              (scoreFn st.model (sanitizeFeatures row.features)))
            < scoreFn st.model (sanitizeFeatures row.features)) }

/-- C2: with `warmup_days = 4`, a row whose snapshot timestamp falls
within the first 4 days of the stream never raises an alert — whatever
the score function returns, so in particular even when the raw score
exceeds the adaptive threshold — while the incremental model and the
ScoreWindow are still updated by that row. -/
theorem warmup_gate_no_alert {M : Type} (cfg : ScorerConfig)
    (scoreFn : M → List Int → Int) (updateFn : M → List Int → M)
    (st : ScorerState M) (row : ScorerRow)
    (hcfg : cfg.warmupDays = 4)
    (hpass : ¬(row.stop_id ∈ excludedStops ∨ allZero row.features = true))
    (hwarm : row.snapshot_time < st.streamStart.getD row.snapshot_time + 4 * 86400) :
    (processRow cfg scoreFn updateFn st row).alert = false ∧
    (processRow cfg scoreFn updateFn st row).state.model =
      updateFn st.model (sanitizeFeatures row.features) ∧
    (processRow cfg scoreFn updateFn st row).state.window =
      pushBounded cfg.windowSize st.window
        (scoreFn st.model (sanitizeFeatures row.features)) := by
  have hw : inWarmup cfg (st.streamStart.getD row.snapshot_time) row.snapshot_time = true := by
    unfold inWarmup
    rw [hcfg]
    simp only [decide_eq_true_eq]
    exact_mod_cast hwarm
  unfold processRow
  rw [if_neg hpass]
  refine ⟨?_, rfl, rfl⟩
  simp only [hw, if_true]

/-- Witness for C2: a concrete scorer whose score function always
returns 10⁶ (far above any threshold the window could produce) still
raises no alert on a row one day into the stream, yet the model counter
and the window contents advance. -/
theorem warmup_gate_no_alert_witness :
    (processRow (M := Int) ⟨100, 10, 256, 10000, 97, 4⟩
        (fun _ _ => 1000000) (fun m _ => m + 1)
        ⟨0, [], some 0⟩ ⟨7, 86400, [some 5]⟩).alert = false ∧
    (processRow (M := Int) ⟨100, 10, 256, 10000, 97, 4⟩
        (fun _ _ => 1000000) (fun m _ => m + 1)
        ⟨0, [], some 0⟩ ⟨7, 86400, [some 5]⟩).state.model = 1 ∧
    (processRow (M := Int) ⟨100, 10, 256, 10000, 97, 4⟩
        (fun _ _ => 1000000) (fun m _ => m + 1)
        ⟨0, [], some 0⟩ ⟨7, 86400, [some 5]⟩).state.window = [1000000] := by
  have h := warmup_gate_no_alert (M := Int) ⟨100, 10, 256, 10000, 97, 4⟩
    (fun _ _ => 1000000) (fun m _ => m + 1)
    ⟨0, [], some 0⟩ ⟨7, 86400, [some 5]⟩ rfl (by decide) (by decide)
  exact ⟨h.1, h.2.1, h.2.2⟩

/-- C9: a row for an excluded/temporary stop, or a row whose feature
vector is all-zero, is not scored, produces no alert, and leaves the
scorer state — in particular the ScoreWindow and hence the adaptive
threshold — completely unchanged. -/
theorem excluded_or_zero_row_skipped {M : Type} (cfg : ScorerConfig)
    (scoreFn : M → List Int → Int) (updateFn : M → List Int → M)
    (st : ScorerState M) (row : ScorerRow)
    (hskip : row.stop_id ∈ excludedStops ∨ allZero row.features = true) :
    processRow cfg scoreFn updateFn st row =
      { state := st, score := none, alert := false } ∧
    adaptiveThreshold cfg.thresholdQuantilePct
        (processRow cfg scoreFn updateFn st row).state.window =
      adaptiveThreshold cfg.thresholdQuantilePct st.window := by
  have h : processRow cfg scoreFn updateFn st row =
      { state := st, score := none, alert := false } := by
    unfold processRow
    rw [if_pos hskip]
  exact ⟨h, by rw [h]⟩

/-- Witness for C9: a row for excluded stop 204472, and a row whose
features sanitise to all zeros, each leave a concrete scorer state
untouched, unscored and alert-free. -/
theorem excluded_or_zero_row_skipped_witness :
    (processRow (M := Int) ⟨100, 10, 256, 10000, 97, 4⟩
        (fun _ _ => 42) (fun m _ => m + 1)
        ⟨5, [3, 9], some 0⟩ ⟨204472, 7200, [some 1]⟩ =
      { state := ⟨5, [3, 9], some 0⟩, score := none, alert := false }) ∧
    (processRow (M := Int) ⟨100, 10, 256, 10000, 97, 4⟩
        (fun _ _ => 42) (fun m _ => m + 1)
        ⟨5, [3, 9], some 0⟩ ⟨7, 7200, [none, some 0]⟩ =
      { state := ⟨5, [3, 9], some 0⟩, score := none, alert := false }) := by
  refine ⟨?_, ?_⟩
  · exact (excluded_or_zero_row_skipped (M := Int) ⟨100, 10, 256, 10000, 97, 4⟩
      (fun _ _ => 42) (fun m _ => m + 1)
      ⟨5, [3, 9], some 0⟩ ⟨204472, 7200, [some 1]⟩ (by decide)).1
  · exact (excluded_or_zero_row_skipped (M := Int) ⟨100, 10, 256, 10000, 97, 4⟩
      (fun _ _ => 42) (fun m _ => m + 1)
      ⟨5, [3, 9], some 0⟩ ⟨7, 7200, [none, some 0]⟩ (by decide)).1

/-- C10: at the scorer boundary every missing (omitted) feature value
is replaced by 0 before scoring — `sanitizeFeatures` maps an omitted
entry to the literal 0 — so a row with an omitted feature is processed
exactly as the same row carrying a genuine zero at that position: the
two are indistinguishable to `processRow`. -/
theorem missing_filled_zero_indistinguishable {M : Type} (cfg : ScorerConfig)
    (scoreFn : M → List Int → Int) (updateFn : M → List Int → M)
    (st : ScorerState M) (row : ScorerRow)
    (pre post : List (Option Int))
    (hrow : row.features = pre ++ none :: post) :
    sanitizeFeatures row.features =
      sanitizeFeatures pre ++ 0 :: sanitizeFeatures post ∧
    sanitizeFeatures row.features = sanitizeFeatures (pre ++ some 0 :: post) ∧
    processRow cfg scoreFn updateFn st { row with features := pre ++ some 0 :: post } =
      processRow cfg scoreFn updateFn st row := by
  have hs : sanitizeFeatures (pre ++ some 0 :: post) =
      sanitizeFeatures (pre ++ none :: post) := by
    simp [sanitizeFeatures]
  refine ⟨?_, ?_, ?_⟩
  · rw [hrow]
    simp [sanitizeFeatures]
  · rw [hrow, hs]
  · unfold processRow allZero
    rw [hrow]
    simp only [hs]

/-- Witness for C10: a concrete row with an omitted middle feature is
scored identically to the row with a genuine zero there, and its
sanitised feature vector carries a 0 at the omitted position. -/
theorem missing_filled_zero_indistinguishable_witness :
    sanitizeFeatures [some 3, none, some 8] =
      sanitizeFeatures [some 3] ++ 0 :: sanitizeFeatures [some 8] ∧
    sanitizeFeatures [some 3, none, some 8] =
      sanitizeFeatures [some 3, some 0, some 8] ∧
    processRow (M := Int) ⟨100, 10, 256, 10000, 97, 4⟩
        (fun _ fs => fs.foldl (· + ·) 0) (fun m _ => m + 1)
        ⟨0, [], some 0⟩ ⟨7, 86400, [some 3, some 0, some 8]⟩ =
      processRow (M := Int) ⟨100, 10, 256, 10000, 97, 4⟩
        (fun _ fs => fs.foldl (· + ·) 0) (fun m _ => m + 1)
        ⟨0, [], some 0⟩ ⟨7, 86400, [some 3, none, some 8]⟩ := by
  exact missing_filled_zero_indistinguishable (M := Int) ⟨100, 10, 256, 10000, 97, 4⟩
    (fun _ fs => fs.foldl (· + ·) 0) (fun m _ => m + 1)
    ⟨0, [], some 0⟩ ⟨7, 86400, [some 3, none, some 8]⟩ [some 3] [some 8] rfl

/-- Modelled from the spec: `TripForecastRecord` — stop, direction and
route keys, the predicted arrival timestamp (`forecastArrival`), the
scheduled arrival and scheduled/predicted departure timestamps when the
feed carries them, and the timestamp at which the record was
produced/received.  All timestamps are epoch seconds. -/
structure TripForecastRecord where
  stop_id : Nat
  direction_id : Nat
  route_id : Nat
  forecastArrival : Int
  scheduledArrival : Option Int
  forecastDeparture : Option Int
  scheduledDeparture : Option Int
  recordTimestamp : Int
deriving Repr, DecidableEq

/-- Modelled from the spec: the SnapshotJoiner acceptance filter for a
forecast record at snapshot time `snapT` — staleness within the
configured bound, forecast arrival at most 2 hours (7200 s) in the
future, and arrival inside the dynamic future window. -/
def forecastQualifies (snapT staleBound futureWindow : Int)
    (r : TripForecastRecord) : Bool :=
  decide (snapT - r.recordTimestamp ≤ staleBound ∧
          r.forecastArrival ≤ snapT + 7200 ∧
          r.forecastArrival - snapT ≤ futureWindow)

/-- Modelled from the spec: a record's temporal proximity to the
snapshot timestamp — the absolute difference between forecast arrival
and snapshot time, in seconds. -/
def arrivalDiff (snapT : Int) (r : TripForecastRecord) : Nat :=
  (r.forecastArrival - snapT).natAbs

/-- Modelled from the spec: ambiguity resolution between two candidate
records — the one with minimum absolute time difference to the snapshot
timestamp wins, exact ties break by the later-received record. -/
def betterForecast (snapT : Int) (acc r : TripForecastRecord) : TripForecastRecord :=
  if arrivalDiff snapT r < arrivalDiff snapT acc ∨
     (arrivalDiff snapT r = arrivalDiff snapT acc ∧
      acc.recordTimestamp < r.recordTimestamp)
  then r else acc

/-- Modelled from the spec: SnapshotJoiner selection of at most one
forecast record for one (stop, direction) at one snapshot minute —
filter by `forecastQualifies`, then resolve ambiguity by temporal
proximity with later-received tie-break. -/
def selectForecast (snapT staleBound futureWindow : Int)
    (rs : List TripForecastRecord) : Option TripForecastRecord :=
  match rs.filter (forecastQualifies snapT staleBound futureWindow) with
  | [] => none
  | r :: rest => some (rest.foldl (betterForecast snapT) r)

/-- The "not worse" preorder used to state selection minimality:
`a` is at least as close to the snapshot as `b`, and on an exact tie
`a` was received no earlier than `b`. -/
def forecastNotWorse (snapT : Int) (a b : TripForecastRecord) : Prop :=
  arrivalDiff snapT a ≤ arrivalDiff snapT b ∧
  (arrivalDiff snapT a = arrivalDiff snapT b →
    b.recordTimestamp ≤ a.recordTimestamp)

lemma forecastNotWorse_refl (snapT : Int) (a : TripForecastRecord) :
    forecastNotWorse snapT a a :=
  ⟨le_refl _, fun _ => le_refl _⟩

lemma forecastNotWorse_trans (snapT : Int) (a b c : TripForecastRecord)
    (h1 : forecastNotWorse snapT a b) (h2 : forecastNotWorse snapT b c) :
    forecastNotWorse snapT a c := by
  obtain ⟨l1, t1⟩ := h1
  obtain ⟨l2, t2⟩ := h2
  refine ⟨le_trans l1 l2, fun he => ?_⟩
  have e1 : arrivalDiff snapT a = arrivalDiff snapT b := by omega
  have e2 : arrivalDiff snapT b = arrivalDiff snapT c := by omega
  exact le_trans (t2 e2) (t1 e1)

lemma betterForecast_spec (snapT : Int) (acc r : TripForecastRecord) :
    (betterForecast snapT acc r = acc ∨ betterForecast snapT acc r = r) ∧
    forecastNotWorse snapT (betterForecast snapT acc r) acc ∧
    forecastNotWorse snapT (betterForecast snapT acc r) r := by
  unfold betterForecast
  by_cases hc : arrivalDiff snapT r < arrivalDiff snapT acc ∨
      (arrivalDiff snapT r = arrivalDiff snapT acc ∧
       acc.recordTimestamp < r.recordTimestamp)
  · rw [if_pos hc]
    refine ⟨Or.inr rfl, ⟨?_, ?_⟩, forecastNotWorse_refl snapT r⟩
    · rcases hc with h | h
      · exact le_of_lt h
      · exact le_of_eq h.1
    · intro he
      rcases hc with h | h
      · omega
      · exact le_of_lt h.2
  · rw [if_neg hc]
    push_neg at hc
    refine ⟨Or.inl rfl, forecastNotWorse_refl snapT acc, ⟨hc.1, fun he => ?_⟩⟩
    exact hc.2 he.symm

lemma foldl_betterForecast_min (snapT : Int) :
    ∀ (l : List TripForecastRecord) (acc : TripForecastRecord),
      (l.foldl (betterForecast snapT) acc = acc ∨
        l.foldl (betterForecast snapT) acc ∈ l) ∧
      forecastNotWorse snapT (l.foldl (betterForecast snapT) acc) acc ∧
      ∀ r ∈ l, forecastNotWorse snapT (l.foldl (betterForecast snapT) acc) r := by
  intro l
  induction l with
  | nil =>
    intro acc
    exact ⟨Or.inl rfl, forecastNotWorse_refl snapT acc, by simp⟩
  | cons x xs ih =>
    intro acc
    rw [List.foldl_cons]
    obtain ⟨hmem, hacc, hall⟩ := ih (betterForecast snapT acc x)
    obtain ⟨hbm, hba, hbx⟩ := betterForecast_spec snapT acc x
    refine ⟨?_, forecastNotWorse_trans snapT _ _ _ hacc hba, ?_⟩
    · rcases hmem with h | h
      · rw [h]
        rcases hbm with h2 | h2
        · exact Or.inl h2
        · exact Or.inr (by rw [h2]; exact List.mem_cons_self x xs)
      · exact Or.inr (List.mem_cons_of_mem x h)
    · intro r hr
      rcases List.mem_cons.mp hr with h | h
      · rw [h]
        exact forecastNotWorse_trans snapT _ _ _ hacc hbx
      · exact hall r h

lemma selectForecast_mem_qualifies (snapT sb fw : Int)
    (rs : List TripForecastRecord) (sel : TripForecastRecord)
    (hsel : selectForecast snapT sb fw rs = some sel) :
    sel ∈ rs ∧ forecastQualifies snapT sb fw sel = true := by
  unfold selectForecast at hsel
  cases hfl : rs.filter (forecastQualifies snapT sb fw) with
  | nil =>
    rw [hfl] at hsel
    exact absurd hsel (by simp)
  | cons r rest =>
    rw [hfl] at hsel
    simp only [Option.some_inj] at hsel
    have hmem : sel ∈ rs.filter (forecastQualifies snapT sb fw) := by
      rw [hfl]
      obtain ⟨hm, _, _⟩ := foldl_betterForecast_min snapT rest r
      rw [hsel] at hm
      rcases hm with h | h
      · rw [h]
        exact List.mem_cons_self r rest
      · exact List.mem_cons_of_mem r h
    exact ⟨(List.mem_filter.mp hmem).1, (List.mem_filter.mp hmem).2⟩

/-- C4: whenever the SnapshotJoiner selects a forecast record for a
(stop, direction), the selected record qualifies, comes from the input
batch, and among all qualifying records it has minimum absolute time
difference to the snapshot timestamp, with exact ties resolved in
favour of the later-received record. -/
theorem joiner_selects_closest (snapT staleBound futureWindow : Int)
    (rs : List TripForecastRecord) (sel : TripForecastRecord)
    (hsel : selectForecast snapT staleBound futureWindow rs = some sel) :
    sel ∈ rs ∧
    forecastQualifies snapT staleBound futureWindow sel = true ∧
    ∀ r ∈ rs, forecastQualifies snapT staleBound futureWindow r = true →
      arrivalDiff snapT sel ≤ arrivalDiff snapT r ∧
      (arrivalDiff snapT sel = arrivalDiff snapT r →
        r.recordTimestamp ≤ sel.recordTimestamp) := by
  obtain ⟨hmem, hq⟩ := selectForecast_mem_qualifies snapT staleBound futureWindow rs sel hsel
  refine ⟨hmem, hq, ?_⟩
  intro r hr hrq
  have hrf : r ∈ rs.filter (forecastQualifies snapT staleBound futureWindow) :=
    List.mem_filter.mpr ⟨hr, hrq⟩
  unfold selectForecast at hsel
  cases hfl : rs.filter (forecastQualifies snapT staleBound futureWindow) with
  | nil =>
    rw [hfl] at hrf
    exact absurd hrf (by simp)
  | cons hd rest =>
    rw [hfl] at hsel hrf
    simp only [Option.some_inj] at hsel
    obtain ⟨_, hacc, hall⟩ := foldl_betterForecast_min snapT rest hd
    rw [hsel] at hacc hall
    rcases List.mem_cons.mp hrf with h | h
    · rw [h]
      exact hacc
    · exact hall r h

/-- Witness for C4: the spec scenario — snapshot time 1000000, one
record forecasting arrival 50 s ahead received 10 s ago, another
forecasting 40 s ahead received 170 s ago, staleness bound 180 s — the
joiner selects the second record, whose proximity (40 s) is minimal. -/
theorem joiner_selects_closest_witness :
    selectForecast 1000000 180 7200
        [⟨1, 0, 10, 1000050, none, none, none, 999990⟩, ⟨1, 0, 10, 1000040, none, none, none, 999830⟩] =
      some ⟨1, 0, 10, 1000040, none, none, none, 999830⟩ ∧
    arrivalDiff 1000000 (⟨1, 0, 10, 1000040, none, none, none, 999830⟩ : TripForecastRecord) ≤
      arrivalDiff 1000000 (⟨1, 0, 10, 1000050, none, none, none, 999990⟩ : TripForecastRecord) := by
  have hsel : selectForecast 1000000 180 7200
      [⟨1, 0, 10, 1000050, none, none, none, 999990⟩, ⟨1, 0, 10, 1000040, none, none, none, 999830⟩] =
      some ⟨1, 0, 10, 1000040, none, none, none, 999830⟩ := by decide
  have h := joiner_selects_closest 1000000 180 7200
    [⟨1, 0, 10, 1000050, none, none, none, 999990⟩, ⟨1, 0, 10, 1000040, none, none, none, 999830⟩]
    ⟨1, 0, 10, 1000040, none, none, none, 999830⟩ hsel
  exact ⟨hsel, (h.2.2 ⟨1, 0, 10, 1000050, none, none, none, 999990⟩ (by decide) (by decide)).1⟩

/-- C8: a forecast record whose predicted arrival is more than 2 hours
after the snapshot timestamp never qualifies, regardless of its
staleness; a record qualifies only if its staleness relative to the
snapshot timestamp is within the configured bound; and consequently any
record the joiner selects obeys both bounds. -/
theorem forecast_tolerance_bounds (snapT staleBound futureWindow : Int)
    (r : TripForecastRecord) :
    (snapT + 7200 < r.forecastArrival →
      forecastQualifies snapT staleBound futureWindow r = false) ∧
    (forecastQualifies snapT staleBound futureWindow r = true →
      snapT - r.recordTimestamp ≤ staleBound) ∧
    (∀ rs : List TripForecastRecord,
      selectForecast snapT staleBound futureWindow rs = some r →
      r.forecastArrival ≤ snapT + 7200 ∧
      snapT - r.recordTimestamp ≤ staleBound) := by
  refine ⟨?_, ?_, ?_⟩
  · intro h
    simp only [forecastQualifies, decide_eq_false_iff_not]
    intro hc
    omega
  · intro h
    simp only [forecastQualifies, decide_eq_true_eq] at h
    exact h.1
  · intro rs hsel
    have hq := (selectForecast_mem_qualifies snapT staleBound futureWindow rs r hsel).2
    simp only [forecastQualifies, decide_eq_true_eq] at hq
    exact ⟨hq.2.1, hq.1⟩

/-- Witness for C8: at snapshot time 0 with a 180 s staleness bound, a
record forecasting arrival 8000 s ahead is rejected although received
at the snapshot instant, and a qualifying record received 30 s before
the snapshot indeed has staleness within 180 s. -/
theorem forecast_tolerance_bounds_witness :
    forecastQualifies 0 180 10000 ⟨1, 0, 10, 8000, none, none, none, 0⟩ = false ∧
    (0 : Int) - (⟨1, 0, 10, 100, none, none, none, -30⟩ : TripForecastRecord).recordTimestamp ≤ 180 := by
  refine ⟨?_, ?_⟩
  · exact (forecast_tolerance_bounds 0 180 10000 ⟨1, 0, 10, 8000, none, none, none, 0⟩).1 (by decide)
  · exact (forecast_tolerance_bounds 0 180 10000 ⟨1, 0, 10, 100, none, none, none, -30⟩).2.1 (by decide)

/-- Modelled from the spec: the service day of a local timestamp — the
operational day boundary falls at 03:00 local rather than midnight, so
the day index is the floor of (t − 3 h) over 24 h. -/
def serviceDay (t : Int) : Int := (t - 3 * 3600).fdiv 86400

/-- Modelled from the spec: reset-on-service-day-change semantics of
the `RollingStateStore` — once a snapshot's local time crosses 03:00
into a new service day relative to the key's last-seen timestamp, the
5/15/60-window rolling buffers are cleared before computing the new
row, while the key's identity and the last-known scalars persist. -/
def applyServiceDayReset (st : StationState) (snapT : Int) : StationState :=
  match st.lastSnapshotTs with
  | none => st
  | some prev =>
    if serviceDay prev < serviceDay snapT then
      { st with delayBuf5 := [], delayBuf15 := [], headwayBuf60 := [] }
    else st

/-- C5: for a key whose last-seen timestamp lies in an earlier service
day than the incoming snapshot (the 03:00 boundary has been crossed),
the reset clears the 5/15/60-window rolling buffers while leaving the
`lastHeadway`, `lastArrivalDelay` and `lastDepartureDelay` scalars used
for the next row's headway/gradient computation untouched. -/
theorem service_day_reset_clears_buffers (st : StationState) (snapT prev : Int)
    (hprev : st.lastSnapshotTs = some prev)
    (hcross : serviceDay prev < serviceDay snapT)
    (hne : st.delayBuf5 ≠ [] ∨ st.delayBuf15 ≠ [] ∨ st.headwayBuf60 ≠ []) :
    (applyServiceDayReset st snapT).delayBuf5 = [] ∧
    (applyServiceDayReset st snapT).delayBuf15 = [] ∧
    (applyServiceDayReset st snapT).headwayBuf60 = [] ∧
    (applyServiceDayReset st snapT).lastHeadway = st.lastHeadway ∧
    (applyServiceDayReset st snapT).lastArrivalDelay = st.lastArrivalDelay ∧
    (applyServiceDayReset st snapT).lastDepartureDelay = st.lastDepartureDelay := by
  unfold applyServiceDayReset
  rw [hprev]
  simp only [if_pos hcross]
  simp

/-- Witness for C5: a key last seen at 02:00 receiving a snapshot at
04:00 the same calendar day has crossed the 03:00 service-day boundary;
its non-empty buffers are cleared and its scalars survive. -/
theorem service_day_reset_clears_buffers_witness :
    (applyServiceDayReset
        { lastArrivalDelay := some 30, lastDepartureDelay := some 45,
          lastHeadway := some 120, lastArrivalTime := some 7000,
          delayBuf5 := [30], delayBuf15 := [30, 25], headwayBuf60 := [120],
          lastSnapshotTs := some 7200 } 14400).delayBuf5 = [] ∧
    (applyServiceDayReset
        { lastArrivalDelay := some 30, lastDepartureDelay := some 45,
          lastHeadway := some 120, lastArrivalTime := some 7000,
          delayBuf5 := [30], delayBuf15 := [30, 25], headwayBuf60 := [120],
          lastSnapshotTs := some 7200 } 14400).lastHeadway = some 120 ∧
    (applyServiceDayReset
        { lastArrivalDelay := some 30, lastDepartureDelay := some 45,
          lastHeadway := some 120, lastArrivalTime := some 7000,
          delayBuf5 := [30], delayBuf15 := [30, 25], headwayBuf60 := [120],
          lastSnapshotTs := some 7200 } 14400).lastArrivalDelay = some 30 := by
  have h := service_day_reset_clears_buffers
    { lastArrivalDelay := some 30, lastDepartureDelay := some 45,
      lastHeadway := some 120, lastArrivalTime := some 7000,
      delayBuf5 := [30], delayBuf15 := [30, 25], headwayBuf60 := [120],
      lastSnapshotTs := some 7200 } 14400 7200 rfl (by decide)
    (Or.inl (by decide))
  exact ⟨h.1, h.2.2.2.1, h.2.2.2.2.1⟩

/-- Modelled from the spec: `VehiclePositionRecord` — the stop (or
nearest stop) a vehicle was observed at and the observation
timestamp. -/
structure VehiclePositionRecord where
  stop_id : Nat
  timestamp : Int
deriving Repr, DecidableEq

/-- Modelled from the spec: presence indicator `is_train_present` — 1
iff a position record exists whose age relative to the snapshot
timestamp is within the freshness bound; an older record is treated as
absent, not stale-but-present. -/
def isTrainPresent (freshBound snapT : Int) (p : Option VehiclePositionRecord) : Nat :=
  match p with
  | none => 0
  | some r => if snapT - r.timestamp ≤ freshBound then 1 else 0

/-- Modelled from the spec: `data_fresh_secs` — always emitted; the
elapsed age of the most recent position record capped at 86400 seconds
(24 h), and the full cap when no record exists at all. -/
def dataFreshSecs (snapT : Int) (p : Option VehiclePositionRecord) : Int :=
  match p with
  | none => 86400
  | some r => min (snapT - r.timestamp) 86400

/-- Modelled from the spec: `arrival_delay` — predicted minus scheduled
arrival in seconds, omitted (not zero) when either timestamp is
absent. -/
def arrivalDelay (fc : Option TripForecastRecord) : Option Int :=
  fc.bind (fun r => r.scheduledArrival.map (fun s => r.forecastArrival - s))

/-- Modelled from the spec: `departure_delay` — predicted minus
scheduled departure in seconds, omitted when either timestamp is
absent. -/
def departureDelay (fc : Option TripForecastRecord) : Option Int :=
  fc.bind (fun r =>
    r.scheduledDeparture.bind (fun s =>
      r.forecastDeparture.map (fun d => d - s)))

/-- Modelled from the spec: the computed headway — the current
scheduled/predicted arrival minus the previous one recorded in state
for the same (stop, direction); absent before the first arrival. -/
def computedHeadway (fc : Option TripForecastRecord) (st : StationState) : Option Int :=
  fc.bind (fun r => st.lastArrivalTime.map (fun p => r.forecastArrival - p))

/-- Modelled from the spec: the `headway_t` feature column — the
computed headway when it passes the [0, 3600] sanity bound, omitted
otherwise (invalid headways are discarded). -/
def headwayFeature (fc : Option TripForecastRecord) (st : StationState) : Option Int :=
  (computedHeadway fc st).bind
    (fun h => if 0 ≤ h ∧ h ≤ 3600 then some h else none)

/-- Modelled from the spec: gradient feature — first difference of the
delay series across consecutive snapshot minutes for the same key,
zero-filled only at stream start for that key. -/
def delayGrad (cur prev : Option Int) : Option Int :=
  match cur, prev with
  | some c, some p => some (c - p)
  | some _, none => some 0
  | none, _ => none

/-- Modelled from the spec: rolling mean of a bounded buffer, omitted
while the buffer is empty. -/
def bufMean (l : List Int) : Option ℚ :=
  if l.isEmpty then none
  else some (((l.foldl (· + ·) 0 : Int) : ℚ) / (l.length : ℚ))

/-- Modelled from the spec: the 90th percentile of the trailing
60-window headway buffer, realised as the entry at the 90 % index of
the sorted buffer, omitted while the buffer is empty. -/
def headwayP90 (l : List Int) : Option Int :=
  if l.isEmpty then none
  else some ((sortInts l).getD
    (min ((sortInts l).length - 1) (90 * (sortInts l).length / 100)) 0)

/-- Modelled from the spec: `FeatureVector` — one output row per
(stop, direction, snapshot time).  Delay columns are omitted (`none`)
rather than zero when the underlying timestamps are absent; the
floating-point sine/cosine hour encoding of the source is represented
by the underlying integer hour of day, and `day_type` by the day index
modulo 7. -/
structure FeatureVector where
  stop_id : Nat
  direction_id : Nat
  snapshot_time : Int
  arrival_delay : Option Int
  departure_delay : Option Int
  headway : Option Int
  delay_arrival_grad : Option Int
  delay_departure_grad : Option Int
  delay_mean_5 : Option ℚ
  delay_mean_15 : Option ℚ
  headway_p90_60 : Option Int
  hour_of_day : Int
  day_type : Int
  is_train_present : Nat
  data_fresh_secs : Int
deriving Repr, DecidableEq

/-- Modelled from the spec: `FeatureComputer` — computes one feature
row for a key from the joined records and the *previous* state (the
state is read before the new observation is written, so headway and
gradient features reflect the prior minute). -/
def computeFeatureRow (stop dir : Nat) (snapT : Int)
    (fc : Option TripForecastRecord) (pos : Option VehiclePositionRecord)
    (freshBound : Int) (st : StationState) : FeatureVector :=
  { stop_id := stop, direction_id := dir, snapshot_time := snapT,
    arrival_delay := arrivalDelay fc,
    departure_delay := departureDelay fc,
    headway := headwayFeature fc st,
    delay_arrival_grad := delayGrad (arrivalDelay fc) st.lastArrivalDelay,
    delay_departure_grad := delayGrad (departureDelay fc) st.lastDepartureDelay,
    delay_mean_5 := bufMean st.delayBuf5,
    delay_mean_15 := bufMean st.delayBuf15,
    headway_p90_60 := headwayP90 st.headwayBuf60,
    hour_of_day := (snapT.fdiv 3600).emod 24,
    day_type := (snapT.fdiv 86400).emod 7,
    is_train_present := isTrainPresent freshBound snapT pos,
    data_fresh_secs := dataFreshSecs snapT pos }

/-- C6: `is_train_present` and `data_fresh_secs` are always emitted
(they are total fields of every feature row); when the most recent
position's age exceeds the freshness bound the position is treated as
absent — presence 0, freshness the elapsed age capped at 86400 — and
the delay features of the row are computed from the forecast record
alone, unaffected by which position record (if any) was joined. -/
theorem stale_position_treated_absent (freshBound snapT : Int)
    (r : VehiclePositionRecord) (hstale : freshBound < snapT - r.timestamp) :
    isTrainPresent freshBound snapT (some r) = 0 ∧
    dataFreshSecs snapT (some r) = min (snapT - r.timestamp) 86400 ∧
    ∀ (stop dir : Nat) (fc : Option TripForecastRecord) (st : StationState)
      (p q : Option VehiclePositionRecord),
      (computeFeatureRow stop dir snapT fc p freshBound st).arrival_delay =
        (computeFeatureRow stop dir snapT fc q freshBound st).arrival_delay ∧
      (computeFeatureRow stop dir snapT fc p freshBound st).departure_delay =
        (computeFeatureRow stop dir snapT fc q freshBound st).departure_delay ∧
      (computeFeatureRow stop dir snapT fc p freshBound st).headway =
        (computeFeatureRow stop dir snapT fc q freshBound st).headway := by
  refine ⟨?_, rfl, ?_⟩
  · show (if snapT - r.timestamp ≤ freshBound then 1 else 0) = 0
    rw [if_neg (by omega)]
  · intro stop dir fc st p q
    exact ⟨rfl, rfl, rfl⟩

/-- Witness for C6: a position 25 hours (90000 s) old against a 60 s
freshness bound yields presence 0 and freshness capped at 86400. -/
theorem stale_position_treated_absent_witness :
    isTrainPresent 60 90000 (some ⟨2, 0⟩) = 0 ∧
    dataFreshSecs 90000 (some ⟨2, 0⟩) = 86400 := by
  have h := stale_position_treated_absent 60 90000 ⟨2, 0⟩ (by decide)
  exact ⟨h.1, h.2.1.trans (by decide)⟩

/-- Modelled from the spec: committing the new observation to
`StationState` after the row has been computed from the previous state
— a valid computed headway is committed through `commitHeadway`, a new
delay feeds the 5/15-window buffers and the scalar fields, and the last
arrival time and last snapshot timestamp advance. -/
def commitArrivalDelay (d : Int) (st : StationState) : StationState :=
  { st with lastArrivalDelay := some d,
            delayBuf5 := pushBounded 5 st.delayBuf5 d,
            delayBuf15 := pushBounded 15 st.delayBuf15 d }

/-- Modelled from the spec: full state commit for one key after the
row has been computed — headway, arrival/departure delay, last arrival
time and last snapshot timestamp. -/
def commitObservation (snapT : Int) (fc : Option TripForecastRecord)
    (st : StationState) : StationState :=
  let stH := match computedHeadway fc st with
    | none => st
    | some h => commitHeadway st h
  let stA := match arrivalDelay fc with
    | none => stH
    | some d => commitArrivalDelay d stH
  let stD := match departureDelay fc with
    | none => stA
    | some d => { stA with lastDepartureDelay := some d }
  let stT := match fc with
    | none => stD
    | some r => { stD with lastArrivalTime := some r.forecastArrival }
  { stT with lastSnapshotTs := some snapT }

/-- Modelled from the spec: the (stop_id, direction_id) key of the
`RollingStateStore`. -/
abbrev StationKey := Nat × Nat

/-- Modelled from the spec: the `RollingStateStore` — an explicit
key-partitioned store of per-(stop, direction) `StationState`,
modelled as an association list with at most one live entry per key. -/
abbrev RollingStateStore := List (StationKey × StationState)

/-- Modelled from the spec: point lookup in the `RollingStateStore`;
a key never seen before receives a lazily created fresh state. -/
def storeLookup (s : RollingStateStore) (k : StationKey) : StationState :=
  match s.find? (fun e => e.1 == k) with
  | some e => e.2
  | none => freshStationState

/-- Modelled from the spec: write-back of one key's state into the
`RollingStateStore`, replacing the existing entry for that key. -/
def storeInsert (s : RollingStateStore) (k : StationKey) (v : StationState) :
    RollingStateStore :=
  match s with
  | [] => [(k, v)]
  | e :: rest => if e.1 == k then (k, v) :: rest else e :: storeInsert rest k v

/-- Modelled from the spec: the in-order deduplicated key list of one
snapshot minute (one row per observed (stop, direction) pair). -/
def dedupKeys (ks : List StationKey) : List StationKey :=
  ks.foldl (fun acc k => if k ∈ acc then acc else acc ++ [k]) []

/-- Modelled from the spec: the most recently observed vehicle position
among the candidates for a stop. -/
def latestPosition (ps : List VehiclePositionRecord) :
    Option VehiclePositionRecord :=
  ps.foldl (fun acc p =>
    match acc with
    | none => some p
    | some a => if a.timestamp < p.timestamp then some p else some a) none

/-- Modelled from the spec: the tolerance configuration of the feature
builder — forecast staleness bound, dynamic future window width, and
vehicle-position freshness bound, in seconds. -/
structure BuilderConfig where
  staleBound : Int
  futureWindow : Int
  freshBound : Int
deriving Repr, DecidableEq

/-- Modelled from the spec: one snapshot minute of input — the batch
timestamp and the trip-forecast and vehicle-position records observed
during that minute. -/
structure SnapshotBatch where
  snapT : Int
  forecasts : List TripForecastRecord
  positions : List VehiclePositionRecord
deriving Repr, DecidableEq

/-- Modelled from the spec:
`SnapshotFeatureBuilder.build_snapshot_features` — one pass over one
snapshot minute, a pure function from (prior state, new records) to
(new state, emitted rows): per key, join the records, apply the
service-day reset, compute the row from the previous state, then
commit the new observation. -/
def buildSnapshotFeatures (cfg : BuilderConfig) (store : RollingStateStore)
    (snapT : Int) (fcs : List TripForecastRecord)
    (poss : List VehiclePositionRecord) :
    RollingStateStore × List FeatureVector :=
  let keys := dedupKeys (fcs.map (fun r => (r.stop_id, r.direction_id)))
  keys.foldl (fun acc k =>
    let fc := selectForecast snapT cfg.staleBound cfg.futureWindow
      (fcs.filter (fun r => r.stop_id == k.1 && r.direction_id == k.2))
    let pos := latestPosition (poss.filter (fun p => p.stop_id == k.1))
    let st0 := applyServiceDayReset (storeLookup acc.1 k) snapT
    (storeInsert acc.1 k (commitObservation snapT fc st0),
     acc.2 ++ [computeFeatureRow k.1 k.2 snapT fc pos cfg.freshBound st0]))
    (store, [])

/-- Modelled from the spec: replaying an ordered sequence of snapshot
minutes through the builder, threading the `RollingStateStore` and
collecting the emitted `FeatureVector` rows. -/
def runBuilder (cfg : BuilderConfig) (store : RollingStateStore)
    (batches : List SnapshotBatch) : RollingStateStore × List FeatureVector :=
  batches.foldl (fun acc b =>
    let r := buildSnapshotFeatures cfg acc.1 b.snapT b.forecasts b.positions
    (r.1, acc.2 ++ r.2)) (store, [])

/-- C7: the builder pass is a pure function of (prior state, new
records) with no other inputs — two passes fed equal stores and equal
record batches produce equal (state, rows) results — and hence
replaying the same ordered sequence of snapshot minutes from a cold
(empty) `RollingStateStore` yields identical `FeatureVector`
sequences. -/
theorem builder_replay_deterministic (cfg : BuilderConfig)
    (seq1 seq2 : List SnapshotBatch) (h : seq1 = seq2) :
    (runBuilder cfg [] seq1).2 = (runBuilder cfg [] seq2).2 ∧
    ∀ (store1 store2 : RollingStateStore) (t1 t2 : Int)
      (f1 f2 : List TripForecastRecord) (p1 p2 : List VehiclePositionRecord),
      store1 = store2 → t1 = t2 → f1 = f2 → p1 = p2 →
      buildSnapshotFeatures cfg store1 t1 f1 p1 =
        buildSnapshotFeatures cfg store2 t2 f2 p2 := by
  subst h
  refine ⟨rfl, ?_⟩
  intro store1 store2 t1 t2 f1 f2 p1 p2 h1 h2 h3 h4
  subst h1
  subst h2
  subst h3
  subst h4
  rfl

/-- Witness for C7: replaying a concrete one-minute sequence twice
from a cold store yields the same emitted rows. -/
theorem builder_replay_deterministic_witness :
    (runBuilder ⟨180, 7200, 60⟩ []
        [⟨600, [⟨1, 0, 10, 650, some 640, none, none, 590⟩], [⟨1, 580⟩]⟩]).2 =
    (runBuilder ⟨180, 7200, 60⟩ []
        [⟨600, [⟨1, 0, 10, 650, some 640, none, none, 590⟩], [⟨1, 580⟩]⟩]).2 := by
  exact (builder_replay_deterministic ⟨180, 7200, 60⟩
    [⟨600, [⟨1, 0, 10, 650, some 640, none, none, 590⟩], [⟨1, 580⟩]⟩]
    [⟨600, [⟨1, 0, 10, 650, some 640, none, none, 590⟩], [⟨1, 580⟩]⟩] rfl).1
